import Mathlib

/-!
Verification of the audio-visualizer repository's feature-extraction pipeline,
normalization policy, scene timeline router, frame-index lookup and chart
loader, shallowly embedded over exact rationals (`ℚ`).  Machine floats are
modelled by exact rational arithmetic: every property checked here is about
value-level dataflow (scaling, lengths, ordering, classification), not about
rounding behaviour.

Sources embedded:
- `src/visualizer_modules/audio_analyzer.py` (`analyze_audio`, `norm`, tasks)
- `src/main.py` (`norm`, `band_energy`, frame-index lookup, `SceneManager`)
- `src/L_R.py` (`N`, `get_band`)
- `src/visualizer_modules/scene_manager.py` (`SceneManager.get_scene_for_time`)
- `src/visualizer_modules/chart_loader.py` (`ChartLoader.load`, `create_empty`)
-/

namespace Visualizer

/-- Maximum of a list of rationals, as `numpy`'s `ndarray.max()` computes it
over a non-empty array; on the empty list we return `0` (numpy raises there,
and every call site in the sources passes the code's own series, which are
non-empty whenever the audio is non-empty). -/
def npMax : List ℚ → ℚ
  | [] => 0
  | a :: as => as.foldl max a

/-- Minimum of a list of rationals (`ndarray.min()`), `0` on the empty list. -/
def npMin : List ℚ → ℚ
  | [] => 0
  | a :: as => as.foldl min a

/-- The literal `1e-10` guard used throughout `audio_analyzer.py`. -/
def eps10 : ℚ := 1 / 10 ^ 10

/-- Generic form of the normalization helper: divide by the series maximum
when it exceeds the threshold `eps`, otherwise return the series unchanged. -/
def normG (eps : ℚ) (x : List ℚ) : List ℚ :=
  if eps < npMax x then x.map (fun v => v / npMax x) else x

/-- Embeds `norm` from `src/visualizer_modules/audio_analyzer.py` lines
101-103: `m = x.max(); return x / m if m > 1e-10 else x`. -/
def norm (x : List ℚ) : List ℚ :=
  normG eps10 x

/-- Embeds `norm` from `src/main.py` lines 62-64:
`m = np.max(x); return x / m if m > 0 else x`. -/
def normMain (x : List ℚ) : List ℚ :=
  normG 0 x

/-- Embeds `N` from `src/L_R.py` lines 87-89:
`m = x.max(); return x / m if m > 0 else x`. -/
def normLR (x : List ℚ) : List ℚ :=
  normG 0 x

/-- Embeds `np.searchsorted(times, t)` (default `side='left'`) as used at
`src/main.py` line 385 and `src/L_R.py` line 267: on a sorted array the left
insertion point of `t` equals the number of elements strictly below `t`. -/
def np_searchsorted (a : List ℚ) (t : ℚ) : ℕ :=
  a.countP (fun v => decide (v < t))

/-- Embeds the frame-index lookup of `src/main.py` lines 384-386 (idem
`src/L_R.py` 267-268): `idx = np.searchsorted(times, t)` followed by
`np.clip(idx, 0, len(times)-1)`.  The searchsorted result is already
non-negative, so the clip is a truncation at `len(times) - 1`. -/
def frameIndexOf (times : List ℚ) (t : ℚ) : ℕ :=
  min (np_searchsorted times t) (times.length - 1)

/-- Embeds `SceneEntry` from `src/visualizer_modules/scene_manager.py` (and
`src/main.py`): a half-open interval with a scene reference.  Scene object
identity is modelled by a natural-number id; `end` is a Lean keyword, so the
field is called `stop`. -/
structure SceneEntry where
  start : ℚ
  stop : ℚ
  scene : ℕ
deriving DecidableEq

/-- Lifecycle calls issued by the scene router (`scene.exit()` and
`scene.enter()` on the scene with the given id). -/
inductive SceneCall where
  | exitCall : ℕ → SceneCall
  | enterCall : ℕ → SceneCall
deriving DecidableEq

/-- The `exit` calls issued on a transition: none when no scene was active,
one `exit` on the previously-active scene otherwise (scene_manager.py lines
36-37: `if self.current: self.current.exit()`). -/
def exitCalls : Option ℕ → List SceneCall
  | none => []
  | some c => [SceneCall.exitCall c]

/-- Embeds `SceneManager.get_scene_for_time` from
`src/visualizer_modules/scene_manager.py` lines 23-41 (identical logic at
`src/main.py` lines 333-342 and `src/L_R.py` lines 220-229).  The state is the
optional id of the currently-active scene (`self.current`); the result is
(returned scene, new current, lifecycle calls in issue order).  The Python
`self.current is not entry.scene` identity test is equality of ids. -/
def get_scene_for_time : List SceneEntry → Option ℕ → ℚ → Option ℕ × Option ℕ × List SceneCall
  | [], cur, _ => (cur, cur, [])
  | e :: rest, cur, t =>
    if e.start ≤ t ∧ t < e.stop then
      if cur = some e.scene then (some e.scene, cur, [])
      else (some e.scene, some e.scene, exitCalls cur ++ [SceneCall.enterCall e.scene])
    else get_scene_for_time rest cur t

/-- First timeline entry whose half-open interval contains `t`, in list
order — the router's lookup policy. -/
def firstMatch : List SceneEntry → ℚ → Option SceneEntry
  | [], _ => none
  | e :: rest, t => if e.start ≤ t ∧ t < e.stop then some e else firstMatch rest t

/-- Embeds `ChartNote` from `src/visualizer_modules/chart_loader.py`. -/
structure ChartNote where
  time : ℚ
  lane : ℤ
  sustain : ℚ
  is_player : Bool
deriving DecidableEq

/-- Embeds `ChartData` from `src/visualizer_modules/chart_loader.py`. -/
structure ChartData where
  bpm : ℚ
  scroll_speed : ℚ
  duration : ℚ
  player1 : String
  player2 : String
  notes : List ChartNote
  player_notes : List ChartNote
  opponent_notes : List ChartNote
deriving DecidableEq

/-- The lane slot (`note_data[1]`) of a raw chart note: a number, or any
non-numeric JSON value (string, null, list, ...). -/
inductive LaneVal where
  | num : ℚ → LaneVal
  | nonNum : LaneVal
deriving DecidableEq

/-- One entry of a section's `sectionNotes` list: `malformed` covers entries
that are not lists or have fewer than three slots (skipped at
chart_loader.py line 143); `note time_ms lane sustain_ms` covers well-formed
entries with numeric time and sustain slots. -/
inductive SectionNote where
  | malformed : SectionNote
  | note : ℚ → LaneVal → ℚ → SectionNote
deriving DecidableEq

/-- A chart section: its notes plus the `mustHitSection` flag (read with a
`False` default at chart_loader.py line 139). -/
structure ChartSection where
  sectionNotes : List SectionNote
  mustHitSection : Bool

/-- The `song` object of a chart JSON file, with the `.get` defaults of
chart_loader.py lines 128-135 already resolved into the fields. -/
structure SongData where
  bpm : ℚ
  speed : ℚ
  player1 : String
  player2 : String
  notes : List ChartSection

/-- The possible outcomes of the file-and-JSON stage of `ChartLoader.load`
(chart_loader.py lines 114-125): the file is missing, the file holds
unparseable JSON, or parsing succeeded and the top-level `song` key is either
absent/empty (`parsed none`, which `data.get('song', {})` turns into a falsy
value) or a non-empty object (`parsed (some song)`). -/
inductive LoadInput where
  | missingFile : LoadInput
  | malformedJSON : LoadInput
  | parsed : Option SongData → LoadInput

/-- Result of `ChartLoader.load`: the re-raised `FileNotFoundError`, the
`ValueError` ("invalid format"), or a `ChartData`. -/
inductive LoadResult where
  | fileNotFound : LoadResult
  | invalidFormat : LoadResult
  | ok : ChartData → LoadResult

/-- Python `int()` on a float/rational truncates toward zero. -/
def pyInt (q : ℚ) : ℤ := if 0 ≤ q then ⌊q⌋ else ⌈q⌉

/-- Embeds the per-note parsing of `ChartLoader.load`, chart_loader.py lines
141-178: skip malformed entries and entries whose lane slot is non-numeric or
negative; lanes `>= 4` lose the offset `4` and are player notes, lanes below
`4` are opponent notes, and `mustHitSection` swaps the classification;
times are converted from milliseconds to seconds. -/
def parseNote (must_hit : Bool) (nd : SectionNote) : Option ChartNote :=
  match nd with
  | .malformed => none
  | .note time_ms lane sustain_ms =>
    match lane with
    | .nonNum => none
    | .num q =>
      if q < 0 then none
      else
        some { time := time_ms / 1000
               lane := if 4 ≤ pyInt q then pyInt q - 4 else pyInt q
               sustain := sustain_ms / 1000
               is_player :=
                 if must_hit then !(decide (4 ≤ pyInt q)) else decide (4 ≤ pyInt q) }

/-- All notes of a chart: sections traversed in order, per-note parsing
applied, then a stable sort by time (chart_loader.py lines 137-181). -/
def chartAllNotes (song : SongData) : List ChartNote :=
  ((song.notes.map fun sec =>
      sec.sectionNotes.filterMap (parseNote sec.mustHitSection)).flatten).mergeSort
    (fun a b => decide (a.time ≤ b.time))

/-- Embeds `ChartLoader.load` (chart_loader.py lines 98-212) from the
file-and-JSON stage onward: a missing file re-raises `FileNotFoundError`,
malformed JSON raises `ValueError`, a missing/empty `song` object raises
`ValueError`, and otherwise the notes are parsed, sorted, split into
player/opponent lists, and the duration is the caller's audio duration when
given, else `max(time + sustain) + 2` over the notes, else `60`. -/
def ChartLoader_load (input : LoadInput) (audio_duration : Option ℚ) : LoadResult :=
  match input with
  | .missingFile => .fileNotFound
  | .malformedJSON => .invalidFormat
  | .parsed none => .invalidFormat
  | .parsed (some song) =>
    .ok { bpm := song.bpm
          scroll_speed := song.speed
          duration :=
            match audio_duration with
            | some d => d
            | none =>
              if chartAllNotes song = [] then 60
              else npMax ((chartAllNotes song).map fun n => n.time + n.sustain) + 2
          player1 := song.player1
          player2 := song.player2
          notes := chartAllNotes song
          player_notes := (chartAllNotes song).filter (fun n => n.is_player)
          opponent_notes := (chartAllNotes song).filter (fun n => !n.is_player) }

/-- Embeds `ChartLoader.create_empty` (chart_loader.py lines 214-236). -/
def create_empty (bpm duration : ℚ) : ChartData :=
  { bpm := bpm, scroll_speed := 3, duration := duration,
    player1 := "bf", player2 := "dad",
    notes := [], player_notes := [], opponent_notes := [] }

/-- Number of columns (analysis frames) of a row-major spectrogram, i.e.
`S.shape[1]` (audio_analyzer.py line 86); rows all share this length in every
source call. -/
def nCols (S : List (List ℚ)) : ℕ := (S.head?.getD []).length

/-- Per-column mean over a list of rows (`rows.mean(axis=0)` restricted to
`n` columns); division by zero rows is the `ℚ` convention `x / 0 = 0`, never
reached by the sources (they guard empty selections separately). -/
def colMean (rows : List (List ℚ)) (n : ℕ) : List ℚ :=
  (List.range n).map fun j => ((rows.map fun r => r.getD j 0).sum) / (rows.length : ℚ)

/-- Embeds `band_energy` from `src/main.py` lines 47-52: select spectrogram
rows whose center frequency lies in the half-open `[fmin, fmax)`, return the
per-frame mean, or an all-zero series when no bin qualifies. -/
def band_energy (freqs : List ℚ) (S : List (List ℚ)) (fmin fmax : ℚ) : List ℚ :=
  if freqs.any (fun f => decide (fmin ≤ f ∧ f < fmax)) then
    colMean (((freqs.zip S).filter fun p => decide (fmin ≤ p.1 ∧ p.1 < fmax)).map Prod.snd)
      (nCols S)
  else List.replicate (nCols S) 0

/-- Embeds `get_band` from `src/L_R.py` lines 66-70; identical to
`band_energy` except the interval is closed: `freqs <= fmax`. -/
def get_band (freqs : List ℚ) (S : List (List ℚ)) (fmin fmax : ℚ) : List ℚ :=
  if freqs.any (fun f => decide (fmin ≤ f ∧ f ≤ fmax)) then
    colMean (((freqs.zip S).filter fun p => decide (fmin ≤ p.1 ∧ p.1 ≤ fmax)).map Prod.snd)
      (nCols S)
  else List.replicate (nCols S) 0

/-- The spec's own wording of band energy ("mean magnitude across spectrogram
rows whose center frequency falls in `[fmin, fmax)`; zero vector if no bins
qualify"), written for comparison against the source definitions. -/
def bandEnergySpec (freqs : List ℚ) (S : List (List ℚ)) (fmin fmax : ℚ) : List ℚ :=
  if ((freqs.zip S).filter fun p => decide (fmin ≤ p.1 ∧ p.1 < fmax)) = [] then
    List.replicate (nCols S) 0
  else
    colMean (((freqs.zip S).filter fun p => decide (fmin ≤ p.1 ∧ p.1 < fmax)).map Prod.snd)
      (nCols S)

/-- Values of column `j` across all rows of a matrix (out-of-range slots read
as `0`; the sources only use aligned rectangular arrays). -/
def colVals (S : List (List ℚ)) (j : ℕ) : List ℚ := S.map fun r => r.getD j 0

/-- Column sum, `S.sum(axis=0)` at column `j`. -/
def colSumAt (S : List (List ℚ)) (j : ℕ) : ℚ := (colVals S j).sum

/-- The `j`-th entry of `np.dot(freqs, S)`. -/
def dotCol (freqs : List ℚ) (S : List (List ℚ)) (j : ℕ) : ℚ :=
  ((freqs.zip S).map fun p => p.1 * p.2.getD j 0).sum

/-- Running prefix sums, `np.cumsum`. -/
def cumList (l : List ℚ) : List ℚ := (l.scanl (· + ·) 0).tail

/-- Embeds `np.diff(row, prepend=row[:1])`: adjacent differences after
prepending the first element, so the result keeps the row's length and starts
with `0`. -/
def diffPre : List ℚ → List ℚ
  | [] => []
  | h :: t => List.zipWith (fun cur prev => cur - prev) (h :: t) (h :: h :: t)

/-- Embeds `np.gradient` on a 1-D array: one-sided differences at the ends,
central differences inside (numpy raises on arrays shorter than 2; the edge
branch below then reads slot 0 twice and returns `[0]`, never hit by the
sources). -/
def npGradient (l : List ℚ) : List ℚ :=
  (List.range l.length).map fun i =>
    if i = 0 then l.getD 1 0 - l.getD 0 0
    else if i = l.length - 1 then l.getD i 0 - l.getD (i - 1) 0
    else (l.getD (i + 1) 0 - l.getD (i - 1) 0) / 2

/-- Embeds `np.convolve(x, [0.25, 0.5, 0.25], mode='same')`. -/
def convolve3 (x : List ℚ) : List ℚ :=
  (List.range x.length).map fun i =>
    (1 / 4) * x.getD (i + 1) 0 + (1 / 2) * x.getD i 0 +
      (1 / 4) * (if i = 0 then 0 else x.getD (i - 1) 0)

/-- Pointwise combination of three equally-long lists. -/
def zip3With (f : ℚ → ℚ → ℚ → ℚ) : List ℚ → List ℚ → List ℚ → List ℚ
  | a :: as, b :: bs, c :: cs => f a b c :: zip3With f as bs cs
  | _, _, _ => []

/-- Pointwise combination of three equally-shaped matrices. -/
def zip3With2D (f : ℚ → ℚ → ℚ → ℚ) :
    List (List ℚ) → List (List ℚ) → List (List ℚ) → List (List ℚ)
  | a :: as, b :: bs, c :: cs => zip3With f a b c :: zip3With2D f as bs cs
  | _, _, _ => []

/-- Soft harmonic mask of `task_hpss_approx` (audio_analyzer.py line 193):
`S * (Hmask / (Hmask + Pmask + 1e-10))`. -/
def softH (s h p : ℚ) : ℚ := s * (h / (h + p + eps10))

/-- Soft percussive mask of `task_hpss_approx` (audio_analyzer.py line 194). -/
def softP (s h p : ℚ) : ℚ := s * (p / (h + p + eps10))

/-- The external-library results `analyze_audio` consumes, gathered as one
input record.  `L` is `len(y)`; `S` is the magnitude spectrogram
`|librosa.stft(y)|`; `freqs` is `librosa.fft_frequencies`; `tempoIn` and
`beatsIn` are `librosa.beat.beat_track`'s outputs; `chromaRaw` is
`librosa.feature.chroma_stft(S=S, ...)`; `Hm`/`Pm` are the two
`scipy.ndimage.median_filter` outputs; `mfccRaw` is
`librosa.feature.mfcc(y=y, ...)`; `zcrRaw` is
`librosa.feature.zero_crossing_rate(y, hop_length=512, center=False)[0]`.
`sqrtA`, `expA`, `logA` stand for the elementwise `np.sqrt`, `np.exp`,
`np.log`, kept as function parameters because their values are irrational;
no claim below depends on their values. -/
structure LibIn where
  L : ℕ
  S : List (List ℚ)
  freqs : List ℚ
  tempoIn : ℚ
  beatsIn : List ℕ
  chromaRaw : List (List ℚ)
  Hm : List (List ℚ)
  Pm : List (List ℚ)
  mfccRaw : List (List ℚ)
  zcrRaw : List ℚ
  sqrtA : ℚ → ℚ
  expA : ℚ → ℚ
  logA : ℚ → ℚ

/-- Embeds `times = np.arange(n_frames) * hop_length / sr` with the balanced
settings `hop_length=512`, `sr=22050` (audio_analyzer.py lines 75-87). -/
def timesOf (n : ℕ) : List ℚ :=
  (List.range n).map fun (i : ℕ) => (i : ℚ) * 512 / 22050

/-- Embeds one entry of the `bands` dict in `task_energy_features`
(audio_analyzer.py lines 110-115): `norm(S[mask].mean(axis=0))` when the mask
hits any frequency, else `np.zeros(n_frames)`. -/
def maskBand (S : List (List ℚ)) (freqs : List ℚ) (lo hi : ℚ) : List ℚ :=
  if freqs.any (fun f => decide (lo ≤ f ∧ f < hi)) then
    norm (colMean (((freqs.zip S).filter fun p => decide (lo ≤ p.1 ∧ p.1 < hi)).map Prod.snd)
      (nCols S))
  else List.replicate (nCols S) 0

/-- Embeds `rms = norm(np.sqrt(np.mean(S**2, axis=0)))` (line 118). -/
def rms_feat (S : List (List ℚ)) (sqrtA : ℚ → ℚ) : List ℚ :=
  norm ((colMean (S.map fun r => r.map fun v => v * v) (nCols S)).map sqrtA)

/-- Embeds the spectral flux of `task_energy_features` (lines 121-123):
zero at frame 0, then the column sums of `|np.diff(S, axis=1)|`. -/
def flux_feat (S : List (List ℚ)) : List ℚ :=
  norm ((List.range (nCols S)).map fun j =>
    if j = 0 then 0 else (S.map fun r => |r.getD j 0 - r.getD (j - 1) 0|).sum)

/-- Embeds the spectral centroid (line 132):
`norm(np.dot(freqs, S) / (S.sum(axis=0) + 1e-10))`. -/
def centroid_feat (S : List (List ℚ)) (freqs : List ℚ) : List ℚ :=
  norm ((List.range (nCols S)).map fun j => dotCol freqs S j / (colSumAt S j + eps10))

/-- Embeds `np.argmax(cumsum >= 0.85 * cumsum[-1], axis=0)` at column `j`
(line 136): the first row index whose running sum reaches 85% of the column
total, or `0` when none does (numpy's argmax over an all-false column). -/
def rolloffIdx (S : List (List ℚ)) (j : ℕ) : ℕ :=
  if ((cumList (colVals S j)).findIdx fun c => decide ((85 / 100 : ℚ) * colSumAt S j ≤ c))
      < S.length then
    (cumList (colVals S j)).findIdx fun c => decide ((85 / 100 : ℚ) * colSumAt S j ≤ c)
  else 0

/-- Embeds `rolloff = norm(freqs[rolloff_idx])` (line 137). -/
def rolloff_feat (S : List (List ℚ)) (freqs : List ℚ) : List ℚ :=
  norm ((List.range (nCols S)).map fun j => freqs.getD (rolloffIdx S j) 0)

/-- Embeds the spectral flatness (lines 140-141):
`norm(np.exp(np.mean(np.log(S + 1e-10), axis=0)) / (S.mean(axis=0) + 1e-10))`. -/
def flatness_feat (S : List (List ℚ)) (expA logA : ℚ → ℚ) : List ℚ :=
  norm ((List.range (nCols S)).map fun j =>
    expA (((colVals S j).map fun v => logA (v + eps10)).sum / (S.length : ℚ)) /
      (colSumAt S j / (S.length : ℚ) + eps10))

/-- Embeds the spectral bandwidth (lines 144-146): the weighted spread around
the (already normalized) centroid, divided by `S.sum(axis=0) + 1e-10`. -/
def bandwidth_feat (S : List (List ℚ)) (freqs : List ℚ) (sqrtA : ℚ → ℚ) : List ℚ :=
  norm ((List.range (nCols S)).map fun j =>
    sqrtA ((((freqs.zip S).map fun p =>
      (p.1 - (centroid_feat S freqs).getD j 0) ^ 2 * p.2.getD j 0).sum) /
        (colSumAt S j + eps10)))

/-- Embeds the simplified spectral contrast (lines 149-150):
`norm(S[:mid].max(axis=0) - S[mid:].min(axis=0))` with `mid = len(S) // 2`. -/
def contrast_feat (S : List (List ℚ)) : List ℚ :=
  norm ((List.range (nCols S)).map fun j =>
    npMax (colVals (S.take (S.length / 2)) j) - npMin (colVals (S.drop (S.length / 2)) j))

/-- Embeds the onset envelope of `task_rhythm` (lines 157-158):
`norm(np.sqrt(np.mean(np.abs(np.diff(S, axis=1, prepend=S[:, :1])), axis=0)))`. -/
def onset_feat (S : List (List ℚ)) (sqrtA : ℚ → ℚ) : List ℚ :=
  norm ((colMean (S.map fun r => (diffPre r).map fun v => |v|) (nCols S)).map sqrtA)

/-- Embeds the tempogram approximation (lines 167-168):
`norm(np.abs(np.gradient(onset)))` over the normalized onset envelope. -/
def tempogram_feat (S : List (List ℚ)) (sqrtA : ℚ → ℚ) : List ℚ :=
  norm ((npGradient (onset_feat S sqrtA)).map fun v => |v|)

/-- Embeds `task_chroma` (lines 174-175): `norm(chroma.mean(axis=0))` over
the library's chromagram. -/
def chroma_feat (chromaRaw : List (List ℚ)) : List ℚ :=
  norm (colMean chromaRaw (nCols chromaRaw))

/-- Embeds the harmonic energy of `task_hpss_approx` (lines 193-196). -/
def harmonic_feat (S Hm Pm : List (List ℚ)) (sqrtA : ℚ → ℚ) : List ℚ :=
  norm ((colMean ((zip3With2D softH S Hm Pm).map fun r => r.map fun v => v * v)
    (nCols S)).map sqrtA)

/-- Embeds the percussive energy of `task_hpss_approx` (lines 194-197). -/
def percussive_feat (S Hm Pm : List (List ℚ)) (sqrtA : ℚ → ℚ) : List ℚ :=
  norm ((colMean ((zip3With2D softP S Hm Pm).map fun r => r.map fun v => v * v)
    (nCols S)).map sqrtA)

/-- Embeds the tonnetz approximation (lines 200-201):
`norm(np.convolve(harmonic, [0.25, 0.5, 0.25], mode='same'))`. -/
def tonnetz_feat (S Hm Pm : List (List ℚ)) (sqrtA : ℚ → ℚ) : List ℚ :=
  norm (convolve3 (harmonic_feat S Hm Pm sqrtA))

/-- Embeds `norm(mfcc.mean(axis=0))` of `task_mfcc` (line 215). -/
def mfcc_feat (mfccRaw : List (List ℚ)) : List ℚ :=
  norm (colMean mfccRaw (nCols mfccRaw))

/-- Embeds `np.diff(mfcc, axis=1, prepend=mfcc[:, :1])` (lines 212-213). -/
def mfccd_mat (mfccRaw : List (List ℚ)) : List (List ℚ) := mfccRaw.map diffPre

/-- Embeds `norm(mfcc_d.mean(axis=0))` (line 215). -/
def mfcc_delta_feat (mfccRaw : List (List ℚ)) : List ℚ :=
  norm (colMean (mfccd_mat mfccRaw) (nCols (mfccd_mat mfccRaw)))

/-- Embeds `norm(mfcc_d2.mean(axis=0))` (line 215). -/
def mfcc_delta2_feat (mfccRaw : List (List ℚ)) : List ℚ :=
  norm (colMean (mfccd_mat (mfccd_mat mfccRaw)) (nCols (mfccd_mat (mfccd_mat mfccRaw))))

/-- Embeds `task_zcr` (lines 218-221): `norm` of the library's
zero-crossing-rate series. -/
def zcr_feat (zcrRaw : List ℚ) : List ℚ := norm zcrRaw

/-- Embeds the `AudioFeatures` dataclass of
`src/visualizer_modules/audio_analyzer.py` lines 9-60. -/
structure AudioFeatures where
  sr : ℕ
  duration : ℚ
  times : List ℚ
  rms : List ℚ
  bass : List ℚ
  mid : List ℚ
  treble : List ℚ
  onset : List ℚ
  spectral_centroid : List ℚ
  spectral_rolloff : List ℚ
  spectral_flatness : List ℚ
  spectral_bandwidth : List ℚ
  spectral_contrast : List ℚ
  tempo : ℚ
  beat_frames : List ℕ
  beat_times : List ℚ
  tempogram : List ℚ
  harmonic : List ℚ
  percussive : List ℚ
  chroma : List ℚ
  tonnetz : List ℚ
  zero_crossing_rate : List ℚ
  sub_bass : List ℚ
  low_mid : List ℚ
  high_mid : List ℚ
  presence : List ℚ
  brilliance : List ℚ
  mfcc : List ℚ
  mfcc_delta : List ℚ
  mfcc_delta2 : List ℚ
  loudness : List ℚ
  novelty : List ℚ
  spectral_flux : List ℚ

/-- Embeds `analyze_audio` from `src/visualizer_modules/audio_analyzer.py`
lines 63-283 over the external-library inputs `lib`: the fixed settings are
`sr = 22050`, `hop_length = 512`, `n_fft = 2048`; `duration = len(y) / sr`;
`n_frames = S.shape[1]`; `times = np.arange(n_frames) * hop_length / sr`;
the frequency masks of lines 90-99 feed `maskBand`; each task's result is
assembled into the dataclass exactly as in lines 249-283 (`loudness` aliases
`rms`, `novelty` aliases `onset`). -/
def analyze_audio (lib : LibIn) : AudioFeatures :=
  { sr := 22050
    duration := (lib.L : ℚ) / 22050
    times := timesOf (nCols lib.S)
    rms := rms_feat lib.S lib.sqrtA
    bass := maskBand lib.S lib.freqs 20 150
    mid := maskBand lib.S lib.freqs 150 2000
    treble := maskBand lib.S lib.freqs 2000 8000
    onset := onset_feat lib.S lib.sqrtA
    spectral_centroid := centroid_feat lib.S lib.freqs
    spectral_rolloff := rolloff_feat lib.S lib.freqs
    spectral_flatness := flatness_feat lib.S lib.expA lib.logA
    spectral_bandwidth := bandwidth_feat lib.S lib.freqs lib.sqrtA
    spectral_contrast := contrast_feat lib.S
    tempo := lib.tempoIn
    beat_frames := lib.beatsIn
    beat_times := lib.beatsIn.map fun (b : ℕ) => (b : ℚ) * 512 / 22050
    tempogram := tempogram_feat lib.S lib.sqrtA
    harmonic := harmonic_feat lib.S lib.Hm lib.Pm lib.sqrtA
    percussive := percussive_feat lib.S lib.Hm lib.Pm lib.sqrtA
    chroma := chroma_feat lib.chromaRaw
    tonnetz := tonnetz_feat lib.S lib.Hm lib.Pm lib.sqrtA
    zero_crossing_rate := zcr_feat lib.zcrRaw
    sub_bass := maskBand lib.S lib.freqs 20 60
    low_mid := maskBand lib.S lib.freqs 250 500
    high_mid := maskBand lib.S lib.freqs 2000 4000
    presence := maskBand lib.S lib.freqs 4000 6000
    brilliance := maskBand lib.S lib.freqs 6000 (22050 / 2)
    mfcc := mfcc_feat lib.mfccRaw
    mfcc_delta := mfcc_delta_feat lib.mfccRaw
    mfcc_delta2 := mfcc_delta2_feat lib.mfccRaw
    loudness := rms_feat lib.S lib.sqrtA
    novelty := onset_feat lib.S lib.sqrtA
    spectral_flux := flux_feat lib.S }

/-- Concrete external-library input exhibiting a negative MFCC mean: the
MFCC matrix row `[-2, 1]` (librosa MFCCs are signed; the zeroth coefficient
of real audio is typically large and negative) has per-frame means `-2` and
`1`.  Shapes are consistent with a 1024-sample signal analyzed at 2 frames,
except `zcrRaw`, which is irrelevant to this input's use. -/
def libC1 : LibIn :=
  { L := 1024
    S := [[0, 0]]
    freqs := [0]
    tempoIn := 120
    beatsIn := []
    chromaRaw := [[0, 0]]
    Hm := [[0, 0]]
    Pm := [[0, 0]]
    mfccRaw := [[-2, 1]]
    zcrRaw := [0, 0]
    sqrtA := id
    expA := id
    logA := id }

/-- Concrete external-library input exhibiting the zero-crossing-rate length
mismatch: a 2560-sample signal has `1 + 2560 / 512 = 6` centered STFT frames
but only `1 + (2560 - 2048) / 512 = 2` uncentered ZCR frames. -/
def libC2 : LibIn :=
  { L := 2560
    S := [[0, 0, 0, 0, 0, 0]]
    freqs := [0]
    tempoIn := 120
    beatsIn := []
    chromaRaw := [[0, 0, 0, 0, 0, 0]]
    Hm := [[0, 0, 0, 0, 0, 0]]
    Pm := [[0, 0, 0, 0, 0, 0]]
    mfccRaw := [[0, 0, 0, 0, 0, 0]]
    zcrRaw := [0, 0]
    sqrtA := id
    expA := id
    logA := id }

/-- Concrete external-library input for evaluating the tempo and duration
passthrough (`tempoIn = 174` BPM, one-second signal at 22050 Hz). -/
def libC3 : LibIn :=
  { L := 22050
    S := [[0]]
    freqs := [0]
    tempoIn := 174
    beatsIn := [2]
    chromaRaw := [[0]]
    Hm := [[0]]
    Pm := [[0]]
    mfccRaw := [[0]]
    zcrRaw := [0]
    sqrtA := id
    expA := id
    logA := id }

/-- Two-scene timeline `[0,5) ↦ scene 0, [5,10) ↦ scene 1` used to evaluate
the router trace concretely. -/
def sceneTimelineW : List SceneEntry := [⟨0, 5, 0⟩, ⟨5, 10, 1⟩]

/-- Frame count of `librosa.stft(y, n_fft=2048, hop_length=512)` with the
default `center=True` padding, per the librosa documentation:
`1 + len(y) // hop_length`. -/
def stftFrames (L : ℕ) : ℕ := 1 + L / 512

/-- Frame count of `librosa.feature.zero_crossing_rate(y, hop_length=512,
center=False)` with the default `frame_length=2048`, per the librosa
documentation of uncentered framing: `1 + (len(y) - 2048) // 512` for
signals of at least one frame. -/
def zcrFrames (L : ℕ) : ℕ := 1 + (L - 2048) / 512

-- Basic facts about `npMax`.

theorem foldl_max_init_le (l : List ℚ) (b c : ℚ) (h : b ≤ c) :
    l.foldl max b ≤ l.foldl max c := by
  induction l generalizing b c with
  | nil => exact h
  | cons a as ih => exact ih _ _ (max_le_max h le_rfl)

theorem le_foldl_max_init (l : List ℚ) (b : ℚ) : b ≤ l.foldl max b := by
  induction l generalizing b with
  | nil => exact le_rfl
  | cons a as ih => exact le_trans (le_max_left b a) (ih _)

theorem le_foldl_max_of_mem {l : List ℚ} {v : ℚ} (b : ℚ) (h : v ∈ l) :
    v ≤ l.foldl max b := by
  induction l generalizing b with
  | nil => cases h
  | cons a as ih =>
    rcases List.mem_cons.mp h with rfl | h'
    · exact le_trans (le_max_right b v) (le_foldl_max_init as _)
    · exact ih _ h'

theorem le_npMax_of_mem {x : List ℚ} {v : ℚ} (h : v ∈ x) : v ≤ npMax x := by
  cases x with
  | nil => cases h
  | cons a as =>
    rcases List.mem_cons.mp h with rfl | h'
    · exact le_foldl_max_init as v
    · exact le_foldl_max_of_mem a h'

theorem foldl_max_div (l : List ℚ) (b m : ℚ) (hm : 0 < m) :
    (l.map (fun v => v / m)).foldl max (b / m) = (l.foldl max b) / m := by
  induction l generalizing b with
  | nil => rfl
  | cons a as ih =>
    simp only [List.map_cons, List.foldl_cons]
    rw [max_div_div_right hm.le b a]
    exact ih _

/-- Dividing a series by a positive constant divides its maximum. -/
theorem npMax_map_div (x : List ℚ) (m : ℚ) (hm : 0 < m) :
    npMax (x.map (fun v => v / m)) = npMax x / m := by
  cases x with
  | nil => simp [npMax]
  | cons a as => simpa [npMax] using foldl_max_div as a m hm

theorem normG_length (eps : ℚ) (x : List ℚ) : (normG eps x).length = x.length := by
  unfold normG
  split <;> simp

theorem norm_length (x : List ℚ) : (norm x).length = x.length :=
  normG_length _ _

/-- When the maximum clears the threshold, the normalized series has maximum
exactly `1` (exact arithmetic). -/
theorem npMax_normG_of_gt {eps : ℚ} {x : List ℚ} (heps : 0 ≤ eps)
    (h : eps < npMax x) : npMax (normG eps x) = 1 := by
  have hm : 0 < npMax x := lt_of_le_of_lt heps h
  unfold normG
  rw [if_pos h, npMax_map_div x _ hm, div_self hm.ne']

/-- A series whose maximum is exactly `1` is a fixed point of normalization:
either the threshold is below `1` and each element is divided by `1`, or the
threshold test fails and the series is returned unchanged. -/
theorem normG_eq_self_of_npMax_one {eps : ℚ} {y : List ℚ} (h : npMax y = 1) :
    normG eps y = y := by
  unfold normG
  rw [h]
  split
  · simp
  · rfl

theorem npMax_nonneg {x : List ℚ} (h : ∀ v ∈ x, 0 ≤ v) : 0 ≤ npMax x := by
  cases x with
  | nil => exact le_rfl
  | cons a as =>
    exact le_trans (h a (by simp)) (le_foldl_max_init as a)

/-- For a series of non-negative values, normalization keeps every element in
`[0, 1]`, and the maximum either stays at or below the threshold (series
returned unchanged) or becomes exactly `1`. -/
theorem normG_bounds {eps : ℚ} (heps0 : 0 ≤ eps) (heps1 : eps ≤ 1) {x : List ℚ}
    (hx : ∀ v ∈ x, 0 ≤ v) :
    (∀ v ∈ normG eps x, 0 ≤ v ∧ v ≤ 1) ∧
      (npMax (normG eps x) ≤ eps ∨ npMax (normG eps x) = 1) := by
  by_cases h : eps < npMax x
  · have hm : 0 < npMax x := lt_of_le_of_lt heps0 h
    constructor
    · intro v hv
      unfold normG at hv
      rw [if_pos h] at hv
      obtain ⟨w, hw, rfl⟩ := List.mem_map.mp hv
      exact ⟨div_nonneg (hx w hw) hm.le, (div_le_one hm).mpr (le_npMax_of_mem hw)⟩
    · exact Or.inr (npMax_normG_of_gt heps0 h)
  · have hEq : normG eps x = x := by
      unfold normG
      rw [if_neg h]
    push_neg at h
    constructor
    · intro v hv
      rw [hEq] at hv
      exact ⟨hx v hv, le_trans (le_npMax_of_mem hv) (le_trans h heps1)⟩
    · rw [hEq]
      exact Or.inl h

/-- Idempotence of the generic normalization for a non-negative threshold. -/
theorem normG_idem (eps : ℚ) (heps : 0 ≤ eps) (x : List ℚ) :
    normG eps (normG eps x) = normG eps x := by
  by_cases h : eps < npMax x
  · exact normG_eq_self_of_npMax_one (npMax_normG_of_gt heps h)
  · have hx : normG eps x = x := by
      unfold normG
      rw [if_neg h]
    rw [hx]
    exact hx

-- The scene router characterized through `firstMatch`.

theorem get_scene_of_firstMatch_none {scenes : List SceneEntry} {t : ℚ}
    (h : firstMatch scenes t = none) (cur : Option ℕ) :
    get_scene_for_time scenes cur t = (cur, cur, []) := by
  induction scenes with
  | nil => rfl
  | cons e rest ih =>
    unfold firstMatch at h
    unfold get_scene_for_time
    by_cases hc : e.start ≤ t ∧ t < e.stop
    · rw [if_pos hc] at h
      cases h
    · rw [if_neg hc] at h
      rw [if_neg hc]
      exact ih h

theorem get_scene_of_firstMatch_some {scenes : List SceneEntry} {t : ℚ} {e : SceneEntry}
    (h : firstMatch scenes t = some e) (cur : Option ℕ) :
    get_scene_for_time scenes cur t =
      if cur = some e.scene then (some e.scene, cur, [])
      else (some e.scene, some e.scene, exitCalls cur ++ [SceneCall.enterCall e.scene]) := by
  induction scenes with
  | nil => cases h
  | cons e0 rest ih =>
    unfold firstMatch at h
    unfold get_scene_for_time
    by_cases hc : e0.start ≤ t ∧ t < e0.stop
    · rw [if_pos hc] at h
      rw [if_pos hc]
      injection h with h
      subst h
      rfl
    · rw [if_neg hc] at h
      rw [if_neg hc]
      exact ih h

theorem firstMatch_eq_none {scenes : List SceneEntry} {t : ℚ}
    (h : ∀ e ∈ scenes, ¬(e.start ≤ t ∧ t < e.stop)) :
    firstMatch scenes t = none := by
  induction scenes with
  | nil => rfl
  | cons e rest ih =>
    unfold firstMatch
    rw [if_neg (h e (by simp))]
    exact ih fun e' he' => h e' (by simp [he'])

-- Facts about `np_searchsorted` and the clamped frame index.

theorem np_searchsorted_mono (a : List ℚ) {t1 t2 : ℚ} (h : t1 ≤ t2) :
    np_searchsorted a t1 ≤ np_searchsorted a t2 := by
  unfold np_searchsorted
  refine List.countP_mono_left fun v _ hv => ?_
  simp only [decide_eq_true_eq] at hv ⊢
  exact lt_of_lt_of_le hv h

theorem np_searchsorted_char {times : List ℚ} (hs : times.Pairwise (· ≤ ·)) (t : ℚ) :
    ∀ i (hi : i < times.length),
      (times.get ⟨i, hi⟩ < t ↔ i < np_searchsorted times t) := by
  induction times with
  | nil =>
    intro i hi
    simp at hi
  | cons a as ih =>
    obtain ⟨ha, has⟩ := List.pairwise_cons.mp hs
    intro i hi
    cases i with
    | zero =>
      simp only [List.get]
      unfold np_searchsorted
      rw [List.countP_cons]
      constructor
      · intro hat
        simp [hat]
      · intro hpos
        by_contra hat
        have hzero : as.countP (fun v => decide (v < t)) = 0 := by
          rw [List.countP_eq_zero]
          intro v hv
          simp only [decide_eq_true_eq]
          exact fun hvt => hat (lt_of_le_of_lt (ha v hv) hvt)
        simp [hzero, hat] at hpos
    | succ i' =>
      have hi' : i' < as.length := Nat.lt_of_succ_lt_succ hi
      have hstep : (a :: as).get ⟨i' + 1, hi⟩ = as.get ⟨i', hi'⟩ := rfl
      by_cases hat : a < t
      · have hcount : np_searchsorted (a :: as) t = np_searchsorted as t + 1 := by
          unfold np_searchsorted
          rw [List.countP_cons]
          simp [hat]
        rw [hstep, hcount, Nat.succ_lt_succ_iff]
        exact ih has i' hi'
      · have hzero : np_searchsorted as t = 0 := by
          unfold np_searchsorted
          rw [List.countP_eq_zero]
          intro v hv
          simp only [decide_eq_true_eq]
          exact fun hvt => hat (lt_of_le_of_lt (ha v hv) hvt)
        have hcount : np_searchsorted (a :: as) t = 0 := by
          unfold np_searchsorted at hzero ⊢
          rw [List.countP_cons, hzero]
          simp [hat]
        have hget : ¬ as.get ⟨i', hi'⟩ < t :=
          fun hvt => hat (lt_of_le_of_lt (ha _ (as.get_mem _ _)) hvt)
        rw [hstep, hcount]
        exact iff_of_false hget (by omega)

-- Length lemmas for the feature pipeline.

theorem colMean_length (rows : List (List ℚ)) (n : ℕ) : (colMean rows n).length = n := by
  simp [colMean]

theorem timesOf_length (n : ℕ) : (timesOf n).length = n := by
  simp [timesOf]

theorem diffPre_length (r : List ℚ) : (diffPre r).length = r.length := by
  cases r with
  | nil => rfl
  | cons h t => simp [diffPre]

theorem npGradient_length (l : List ℚ) : (npGradient l).length = l.length := by
  simp [npGradient]

theorem convolve3_length (x : List ℚ) : (convolve3 x).length = x.length := by
  simp [convolve3]

theorem nCols_map_diffPre (m : List (List ℚ)) : nCols (mfccd_mat m) = nCols m := by
  cases m with
  | nil => rfl
  | cons r rs => simp [mfccd_mat, nCols, diffPre_length]

theorem maskBand_length (S : List (List ℚ)) (freqs : List ℚ) (lo hi : ℚ) :
    (maskBand S freqs lo hi).length = nCols S := by
  unfold maskBand
  split
  · rw [norm_length, colMean_length]
  · rw [List.length_replicate]

theorem rms_feat_length (S : List (List ℚ)) (sq : ℚ → ℚ) :
    (rms_feat S sq).length = nCols S := by
  simp [rms_feat, norm_length, colMean_length]

theorem flux_feat_length (S : List (List ℚ)) : (flux_feat S).length = nCols S := by
  simp [flux_feat, norm_length]

theorem centroid_feat_length (S : List (List ℚ)) (freqs : List ℚ) :
    (centroid_feat S freqs).length = nCols S := by
  simp [centroid_feat, norm_length]

theorem rolloff_feat_length (S : List (List ℚ)) (freqs : List ℚ) :
    (rolloff_feat S freqs).length = nCols S := by
  simp [rolloff_feat, norm_length]

theorem flatness_feat_length (S : List (List ℚ)) (e l : ℚ → ℚ) :
    (flatness_feat S e l).length = nCols S := by
  simp [flatness_feat, norm_length]

theorem bandwidth_feat_length (S : List (List ℚ)) (freqs : List ℚ) (sq : ℚ → ℚ) :
    (bandwidth_feat S freqs sq).length = nCols S := by
  simp [bandwidth_feat, norm_length]

theorem contrast_feat_length (S : List (List ℚ)) : (contrast_feat S).length = nCols S := by
  simp [contrast_feat, norm_length]

theorem onset_feat_length (S : List (List ℚ)) (sq : ℚ → ℚ) :
    (onset_feat S sq).length = nCols S := by
  simp [onset_feat, norm_length, colMean_length]

theorem tempogram_feat_length (S : List (List ℚ)) (sq : ℚ → ℚ) :
    (tempogram_feat S sq).length = nCols S := by
  simp [tempogram_feat, norm_length, npGradient_length, onset_feat_length]

theorem chroma_feat_length (c : List (List ℚ)) : (chroma_feat c).length = nCols c := by
  simp [chroma_feat, norm_length, colMean_length]

theorem harmonic_feat_length (S Hm Pm : List (List ℚ)) (sq : ℚ → ℚ) :
    (harmonic_feat S Hm Pm sq).length = nCols S := by
  simp [harmonic_feat, norm_length, colMean_length]

theorem percussive_feat_length (S Hm Pm : List (List ℚ)) (sq : ℚ → ℚ) :
    (percussive_feat S Hm Pm sq).length = nCols S := by
  simp [percussive_feat, norm_length, colMean_length]

theorem tonnetz_feat_length (S Hm Pm : List (List ℚ)) (sq : ℚ → ℚ) :
    (tonnetz_feat S Hm Pm sq).length = nCols S := by
  simp [tonnetz_feat, norm_length, convolve3_length, harmonic_feat_length]

theorem mfcc_feat_length (m : List (List ℚ)) : (mfcc_feat m).length = nCols m := by
  simp [mfcc_feat, norm_length, colMean_length]

theorem mfcc_delta_feat_length (m : List (List ℚ)) :
    (mfcc_delta_feat m).length = nCols m := by
  simp [mfcc_delta_feat, norm_length, colMean_length, nCols_map_diffPre]

theorem mfcc_delta2_feat_length (m : List (List ℚ)) :
    (mfcc_delta2_feat m).length = nCols m := by
  simp [mfcc_delta2_feat, norm_length, colMean_length, nCols_map_diffPre]

theorem zcr_feat_length (z : List ℚ) : (zcr_feat z).length = z.length := by
  simp [zcr_feat, norm_length]

/-- The analysis time axis is strictly increasing. -/
theorem timesOf_pairwise (n : ℕ) : (timesOf n).Pairwise (· < ·) := by
  unfold timesOf
  rw [List.pairwise_map]
  refine (List.pairwise_lt_range n).imp ?_
  intro a b hab
  have hc : (a : ℚ) * 512 < (b : ℚ) * 512 := by
    have hab' : (a : ℚ) < (b : ℚ) := by exact_mod_cast hab
    linarith
  exact (div_lt_div_iff_of_pos_right (by norm_num : (0 : ℚ) < 22050)).mpr hc

/-- The analysis time axis starts at zero. -/
theorem timesOf_get_zero (n : ℕ) (h : 0 < (timesOf n).length) :
    (timesOf n).get ⟨0, h⟩ = 0 := by
  cases n with
  | zero => simp [timesOf] at h
  | succ m =>
    simp [timesOf, List.range_succ_eq_map]

/-- For signals of at least one analysis window, the uncentered
zero-crossing-rate framing yields exactly four fewer frames than the centered
STFT framing. -/
theorem zcrFrames_eq_sub (L : ℕ) (h : 2048 ≤ L) :
    zcrFrames L = stftFrames L - 4 ∧ zcrFrames L + 4 = stftFrames L := by
  have key : L / 512 = (L - 2048) / 512 + 4 := by
    have h1 : L - 2048 + 4 * 512 = L := by omega
    calc L / 512 = (L - 2048 + 4 * 512) / 512 := by rw [h1]
    _ = (L - 2048) / 512 + 4 := Nat.add_mul_div_right _ _ (by norm_num)
  unfold zcrFrames stftFrames
  omega

-- Claim theorems.

/-- C1 (counterexample): the claim "every feature series stored in the
FeatureTable after normalization, including the MFCC mean series, has
max ∈ {0, 1} and all elements in [0, 1]" fails on the code.  At the concrete
library input `libC1` (MFCC matrix `[[-2, 1]]`), the stored `mfcc` series
contains `-2 < 0`; and a series whose maximum is positive but at most `1e-10`
is returned unchanged, so its maximum is neither `0` nor near `1`. -/
theorem c1_counterexample :
    (¬ ∀ v ∈ (analyze_audio libC1).mfcc, 0 ≤ v) ∧
    npMax (norm [(1 : ℚ) / (2 * 10 ^ 10)]) ≠ 0 ∧
    npMax (norm [(1 : ℚ) / (2 * 10 ^ 10)]) < 1 / 2 := by
  have hx : npMax [(1 : ℚ) / (2 * 10 ^ 10)] = 1 / (2 * 10 ^ 10) := by
    simp [npMax]
  have hsmall : ¬ eps10 < npMax [(1 : ℚ) / (2 * 10 ^ 10)] := by
    rw [hx]
    norm_num [eps10]
  have hnorm : norm [(1 : ℚ) / (2 * 10 ^ 10)] = [(1 : ℚ) / (2 * 10 ^ 10)] := by
    unfold norm normG
    rw [if_neg hsmall]
  refine ⟨?_, ?_, ?_⟩
  · norm_num [analyze_audio, libC1, mfcc_feat, colMean, nCols, norm, normG, npMax,
      eps10, List.range_succ]
  · rw [hnorm, hx]
    norm_num
  · rw [hnorm, hx]
    norm_num

/-- C1 (amended): for every feature series whose entries are all
non-negative (every S-derived magnitude series; not necessarily the signed
MFCC mean/delta series), the normalized series has all elements in `[0, 1]`
and its maximum is either at most `1e-10` (series returned unchanged) or
exactly `1`. -/
theorem c1_normalized_series_bounded (x : List ℚ) (hx : ∀ v ∈ x, 0 ≤ v) :
    (∀ v ∈ norm x, 0 ≤ v ∧ v ≤ 1) ∧
      (npMax (norm x) ≤ eps10 ∨ npMax (norm x) = 1) :=
  normG_bounds (by norm_num [eps10]) (by norm_num [eps10]) hx

/-- C1 witness: the amended bound evaluated on the concrete non-negative
series `[0, 1/2, 2]`. -/
theorem c1_normalized_series_bounded_witness :
    (∀ v ∈ norm [(0 : ℚ), 1/2, 2], 0 ≤ v ∧ v ≤ 1) ∧
      (npMax (norm [(0 : ℚ), 1/2, 2]) ≤ eps10 ∨ npMax (norm [(0 : ℚ), 1/2, 2]) = 1) :=
  c1_normalized_series_bounded _ (by norm_num)

/-- C3: `norm` (audio_analyzer.py) divides every element by the series
maximum when it exceeds `1e-10` and returns the series unchanged otherwise;
`norm` in main.py does the same with threshold `0`; and the assembled
feature table stores the `tempo` scalar and the `duration` scalar exactly as
produced (never normalized). -/
theorem c3_normalization_contract (x : List ℚ) (lib : LibIn) :
    (eps10 < npMax x → norm x = x.map fun v => v / npMax x) ∧
    (npMax x ≤ eps10 → norm x = x) ∧
    ((0 : ℚ) < npMax x → normMain x = x.map fun v => v / npMax x) ∧
    (npMax x ≤ 0 → normMain x = x) ∧
    (analyze_audio lib).tempo = lib.tempoIn ∧
    (analyze_audio lib).duration = (lib.L : ℚ) / 22050 := by
  refine ⟨?_, ?_, ?_, ?_, rfl, rfl⟩
  · intro h
    unfold norm normG
    rw [if_pos h]
  · intro h
    unfold norm normG
    rw [if_neg (not_lt.mpr h)]
  · intro h
    unfold normMain normG
    rw [if_pos h]
  · intro h
    unfold normMain normG
    rw [if_neg (not_lt.mpr h)]

/-- C3 witness: the contract evaluated at the concrete series `[0, 2]` and
`[0, 1/4]` and the concrete library input `libC3` (tempo 174, one second of
audio). -/
theorem c3_normalization_contract_witness :
    norm [(0 : ℚ), 2] = [0, 1] ∧
    normMain [(0 : ℚ), 1/4] = [0, 1] ∧
    (analyze_audio libC3).tempo = 174 ∧
    (analyze_audio libC3).duration = 1 := by
  have h2 := c3_normalization_contract [(0 : ℚ), 2] libC3
  have h4 := c3_normalization_contract [(0 : ℚ), 1/4] libC3
  refine ⟨?_, ?_, ?_, ?_⟩
  · rw [h2.1 (by norm_num [npMax, eps10])]
    norm_num [npMax]
  · rw [h4.2.2.1 (by norm_num [npMax])]
    norm_num [npMax]
  · rw [h2.2.2.2.2.1]
    rfl
  · rw [h2.2.2.2.2.2]
    norm_num [libC3]

/-- C10: the normalization helpers of all three source files are idempotent:
a series whose maximum clears the threshold is rescaled to maximum exactly
`1`, and the second application divides by `1`; otherwise both applications
return the series unchanged. -/
theorem c10_normalization_idempotent (x : List ℚ) :
    norm (norm x) = norm x ∧
    normMain (normMain x) = normMain x ∧
    normLR (normLR x) = normLR x :=
  ⟨normG_idem eps10 (by norm_num [eps10]) x,
   normG_idem 0 le_rfl x,
   normG_idem 0 le_rfl x⟩

/-- C10 witness: idempotence evaluated at the concrete series `[2, 3]`. -/
theorem c10_normalization_idempotent_witness :
    norm (norm [(2 : ℚ), 3]) = norm [(2 : ℚ), 3] :=
  (c10_normalization_idempotent [(2 : ℚ), 3]).1

/-- C4: along a trace from a fresh router, a first query resolving (by
first-match lookup) to scene `A` issues exactly one `enter` on `A` and no
`exit`; a later query resolving to a different scene `B` issues exactly
`A.exit()` then `B.enter()`; and a further query resolving to the
currently-active `B` returns `B` with no lifecycle calls. -/
theorem c4_scene_transition_protocol (scenes : List SceneEntry) (t1 t2 t3 : ℚ)
    (e1 e2 e3 : SceneEntry) (A B : ℕ)
    (h1 : firstMatch scenes t1 = some e1) (he1 : e1.scene = A)
    (h2 : firstMatch scenes t2 = some e2) (he2 : e2.scene = B)
    (h3 : firstMatch scenes t3 = some e3) (he3 : e3.scene = B)
    (hAB : A ≠ B) :
    get_scene_for_time scenes none t1 = (some A, some A, [SceneCall.enterCall A]) ∧
    get_scene_for_time scenes (some A) t2 =
      (some B, some B, [SceneCall.exitCall A, SceneCall.enterCall B]) ∧
    get_scene_for_time scenes (some B) t3 = (some B, some B, []) := by
  subst he1
  subst he2
  refine ⟨?_, ?_, ?_⟩
  · rw [get_scene_of_firstMatch_some h1, if_neg (by simp)]
    rfl
  · rw [get_scene_of_firstMatch_some h2,
      if_neg (by simpa using fun h => hAB h)]
    rfl
  · rw [get_scene_of_firstMatch_some h3, he3, if_pos rfl]

/-- C4 witness: the protocol on the concrete two-scene timeline, queried at
times 0, 5 and 7. -/
theorem c4_scene_transition_protocol_witness :
    get_scene_for_time sceneTimelineW none 0 =
      (some 0, some 0, [SceneCall.enterCall 0]) ∧
    get_scene_for_time sceneTimelineW (some 0) 5 =
      (some 1, some 1, [SceneCall.exitCall 0, SceneCall.enterCall 1]) ∧
    get_scene_for_time sceneTimelineW (some 1) 7 = (some 1, some 1, []) :=
  c4_scene_transition_protocol sceneTimelineW 0 5 7 ⟨0, 5, 0⟩ ⟨5, 10, 1⟩ ⟨5, 10, 1⟩ 0 1
    (by decide) rfl (by decide) rfl (by decide) rfl (by decide)

/-- C9: when no timeline interval contains the query time and a scene is
currently active, the router returns the active scene, keeps it active, and
issues no lifecycle call. -/
theorem c9_no_interval_returns_current (scenes : List SceneEntry) (t : ℚ) (s : ℕ)
    (h : ∀ e ∈ scenes, ¬(e.start ≤ t ∧ t < e.stop)) :
    get_scene_for_time scenes (some s) t = (some s, some s, []) :=
  get_scene_of_firstMatch_none (firstMatch_eq_none h) _

/-- C9 witness: a gap query on the concrete two-scene timeline. -/
theorem c9_no_interval_returns_current_witness :
    get_scene_for_time sceneTimelineW (some 1) 12 = (some 1, some 1, []) :=
  c9_no_interval_returns_current sceneTimelineW 12 1 (by decide)

/-- C5: the frame-index lookup is the left insertion point of `t` in `times`
clamped to `[0, T-1]`: it is monotone in `t`; it clamps to `0` for `t` below
every (non-negative) time; it clamps to `T-1` for `t` above the duration
bounding every time; and on a sorted axis the searchsorted value is exactly
the insertion point: position `i` holds a time below `t` iff `i` is below
the insertion point.  The lookup is total (never raises). -/
theorem c5_frame_index_lookup (times : List ℚ) (dur t t1 t2 : ℚ)
    (hnn : ∀ v ∈ times, 0 ≤ v) (hub : ∀ v ∈ times, v ≤ dur)
    (hsorted : times.Pairwise (· ≤ ·)) :
    (t1 < t2 → frameIndexOf times t1 ≤ frameIndexOf times t2) ∧
    (t < 0 → frameIndexOf times t = 0) ∧
    (dur < t → frameIndexOf times t = times.length - 1) ∧
    (∀ i (hi : i < times.length),
      (times.get ⟨i, hi⟩ < t ↔ i < np_searchsorted times t)) := by
  refine ⟨?_, ?_, ?_, np_searchsorted_char hsorted t⟩
  · intro h12
    exact min_le_min (np_searchsorted_mono times h12.le) le_rfl
  · intro ht
    have hzero : np_searchsorted times t = 0 := by
      unfold np_searchsorted
      rw [List.countP_eq_zero]
      intro v hv
      simp only [decide_eq_true_eq]
      exact fun hvt => absurd ht (not_lt.mpr (le_trans (hnn v hv) hvt.le))
    unfold frameIndexOf
    rw [hzero]
    simp
  · intro ht
    have hall : np_searchsorted times t = times.length := by
      unfold np_searchsorted
      rw [List.countP_eq_length]
      intro v hv
      simp only [decide_eq_true_eq]
      exact lt_of_le_of_lt (hub v hv) ht
    unfold frameIndexOf
    rw [hall]
    exact min_eq_right (Nat.sub_le _ _)

/-- C5 witness: the lookup on the concrete axis `[0, 1/2, 1]` with duration
`1`: a query before the start clamps to `0`, a query past the end clamps to
`T-1 = 2`, and two in-range queries resolve monotonically. -/
theorem c5_frame_index_lookup_witness :
    frameIndexOf [0, 1/2, 1] (-1) = 0 ∧
    frameIndexOf [0, 1/2, 1] 2 = 2 ∧
    frameIndexOf [0, 1/2, 1] (1/4) ≤ frameIndexOf [0, 1/2, 1] (3/4) := by
  have hnn : ∀ v ∈ [(0 : ℚ), 1/2, 1], 0 ≤ v := by norm_num
  have hub : ∀ v ∈ [(0 : ℚ), 1/2, 1], v ≤ 1 := by norm_num
  have hs : List.Pairwise (· ≤ ·) [(0 : ℚ), 1/2, 1] := by
    norm_num [List.pairwise_cons]
  refine ⟨?_, ?_, ?_⟩
  · exact (c5_frame_index_lookup [0, 1/2, 1] 1 (-1) 0 1 hnn hub hs).2.1 (by norm_num)
  · exact (c5_frame_index_lookup [0, 1/2, 1] 1 2 0 1 hnn hub hs).2.2.1 (by norm_num)
  · exact (c5_frame_index_lookup [0, 1/2, 1] 1 0 (1/4) (3/4) hnn hub hs).1 (by norm_num)

/-- C6: per-note classification of `ChartLoader.load`: a lane `>= 4` becomes
a player note at `lane - 4`, a lane in `[0, 4)` an opponent note at `lane`,
`mustHitSection` swaps the classification leaving the lane unchanged, and a
non-numeric or negative lane (or a malformed entry) is skipped. -/
theorem c6_note_classification (mh : Bool) (tm su q qneg : ℚ)
    (hq : 0 ≤ q) (hqneg : qneg < 0) :
    (4 ≤ pyInt q →
      parseNote false (.note tm (.num q) su) =
        some ⟨tm / 1000, pyInt q - 4, su / 1000, true⟩ ∧
      parseNote true (.note tm (.num q) su) =
        some ⟨tm / 1000, pyInt q - 4, su / 1000, false⟩) ∧
    (pyInt q < 4 →
      parseNote false (.note tm (.num q) su) =
        some ⟨tm / 1000, pyInt q, su / 1000, false⟩ ∧
      parseNote true (.note tm (.num q) su) =
        some ⟨tm / 1000, pyInt q, su / 1000, true⟩) ∧
    parseNote mh (.note tm .nonNum su) = none ∧
    parseNote mh (.note tm (.num qneg) su) = none ∧
    parseNote mh .malformed = none := by
  have hq' : ¬ q < 0 := not_lt.mpr hq
  refine ⟨fun h4 => ⟨?_, ?_⟩, fun h4 => ?_, rfl, ?_, rfl⟩
  · simp [parseNote, hq', h4]
  · simp [parseNote, hq', h4]
  · have h4' : ¬ 4 ≤ pyInt q := not_le.mpr h4
    constructor
    · simp [parseNote, hq', h4']
    · simp [parseNote, hq', h4']
  · simp [parseNote, hqneg]

/-- C6 witness: the spec's round-trip example: a note at lane `5` is a player
note at lane `1` in a normal section and an opponent note at lane `1` in a
must-hit section; a non-numeric and a negative lane are skipped. -/
theorem c6_note_classification_witness :
    parseNote false (.note 1000 (.num 5) 500) = some ⟨1, 1, 1/2, true⟩ ∧
    parseNote true (.note 1000 (.num 5) 500) = some ⟨1, 1, 1/2, false⟩ ∧
    parseNote true (.note 1000 .nonNum 500) = none ∧
    parseNote true (.note 1000 (.num (-1)) 500) = none := by
  have h := c6_note_classification true 1000 500 5 (-1) (by norm_num) (by norm_num)
  have h5 : pyInt 5 = 5 := by norm_num [pyInt]
  have h45 : 4 ≤ pyInt 5 := by rw [h5]; norm_num
  refine ⟨?_, ?_, h.2.2.1, h.2.2.2.1⟩
  · refine ((h.1 h45).1).trans ?_
    rw [h5]
    norm_num
  · refine ((h.1 h45).2).trans ?_
    rw [h5]
    norm_num

/-- C7: `ChartLoader.load` raises the distinct "not found" outcome for a
missing file and the distinct "invalid format" outcome both for malformed
JSON and for a missing/empty top-level `song` object, and
`create_empty(bpm=174, duration=60)` yields a chart with zero notes and
duration `60`. -/
theorem c7_chart_loader_errors (d : Option ℚ) :
    ChartLoader_load .missingFile d = .fileNotFound ∧
    ChartLoader_load .malformedJSON d = .invalidFormat ∧
    ChartLoader_load (.parsed none) d = .invalidFormat ∧
    LoadResult.fileNotFound ≠ LoadResult.invalidFormat ∧
    (create_empty 174 60).notes = [] ∧
    (create_empty 174 60).duration = 60 := by
  refine ⟨rfl, rfl, rfl, ?_, rfl, rfl⟩
  intro h
  cases h

/-- C7 witness: the loader outcomes evaluated with a concrete caller-supplied
audio duration. -/
theorem c7_chart_loader_errors_witness :
    ChartLoader_load .missingFile (some 60) = .fileNotFound ∧
    ChartLoader_load .malformedJSON (some 60) = .invalidFormat ∧
    (create_empty 174 60).notes = [] :=
  ⟨(c7_chart_loader_errors (some 60)).1, (c7_chart_loader_errors (some 60)).2.1,
   (c7_chart_loader_errors (some 60)).2.2.2.2.1⟩

/-- C8 (counterexample): the claim that band energy always selects by the
half-open interval `[fmin, fmax)` fails for `get_band` in `src/L_R.py`,
which uses `freqs <= fmax`: with a single bin at exactly `100` Hz and the
range `(0, 100)`, no bin lies in `[0, 100)`, yet `get_band` returns the
bin's own series rather than the zero vector. -/
theorem c8_counterexample :
    (∀ f ∈ [(100 : ℚ)], ¬((0 : ℚ) ≤ f ∧ f < 100)) ∧
    get_band [(100 : ℚ)] [[1, 1]] 0 100 = [1, 1] ∧
    get_band [(100 : ℚ)] [[1, 1]] 0 100 ≠ List.replicate 2 0 := by
  have hg : get_band [(100 : ℚ)] [[1, 1]] 0 100 = [1, 1] := by
    norm_num [get_band, colMean, nCols, List.range_succ]
  refine ⟨by norm_num, hg, ?_⟩
  rw [hg]
  simp

/-- C8 (amended): `band_energy` in `src/main.py` computes the per-frame mean
magnitude over rows with center frequency in the half-open `[fmin, fmax)`
(it agrees with the spec-worded definition), while `get_band` in
`src/L_R.py` uses the closed interval `[fmin, fmax]`; both return an
all-zero series of length `T = S.shape[1]` when no bin qualifies, and both
always return a series of that length. -/
theorem c8_band_energy_contract (freqs : List ℚ) (S : List (List ℚ)) (fmin fmax : ℚ)
    (hlen : freqs.length = S.length) :
    band_energy freqs S fmin fmax = bandEnergySpec freqs S fmin fmax ∧
    (band_energy freqs S fmin fmax).length = nCols S ∧
    (get_band freqs S fmin fmax).length = nCols S ∧
    ((∀ f ∈ freqs, ¬(fmin ≤ f ∧ f < fmax)) →
      band_energy freqs S fmin fmax = List.replicate (nCols S) 0) ∧
    ((∀ f ∈ freqs, ¬(fmin ≤ f ∧ f ≤ fmax)) →
      get_band freqs S fmin fmax = List.replicate (nCols S) 0) := by
  refine ⟨?_, ?_, ?_, ?_, ?_⟩
  · by_cases h : freqs.any (fun f => decide (fmin ≤ f ∧ f < fmax)) = true
    · obtain ⟨f, hf, hpf⟩ := List.any_eq_true.mp h
      simp only [decide_eq_true_eq] at hpf
      obtain ⟨i, hi, hfi⟩ := List.mem_iff_getElem.mp hf
      have hiS : i < S.length := hlen ▸ hi
      have hizip : i < (freqs.zip S).length := by
        rw [List.length_zip]
        omega
      have hmemz : (freqs.zip S).get ⟨i, hizip⟩ ∈ freqs.zip S := List.get_mem _ _ _
      have hgz : (freqs.zip S).get ⟨i, hizip⟩ = (freqs.get ⟨i, hi⟩, S.get ⟨i, hiS⟩) := by
        simp [List.getElem_zip]
      have hmem :
          ((freqs.zip S).filter fun p => decide (fmin ≤ p.1 ∧ p.1 < fmax)) ≠ [] := by
        apply List.ne_nil_of_mem (a := (freqs.zip S).get ⟨i, hizip⟩)
        rw [List.mem_filter]
        refine ⟨hmemz, ?_⟩
        rw [hgz]
        simp only [decide_eq_true_eq]
        have : freqs.get ⟨i, hi⟩ = f := by
          rw [← hfi]
          simp
        rw [this]
        exact hpf
      unfold band_energy bandEnergySpec
      rw [if_pos h, if_neg hmem]
    · have hfil :
          ((freqs.zip S).filter fun p => decide (fmin ≤ p.1 ∧ p.1 < fmax)) = [] := by
        rw [List.filter_eq_nil_iff]
        intro p hp
        have h1 := (List.of_mem_zip hp).1
        intro hpd
        apply h
        rw [List.any_eq_true]
        exact ⟨p.1, h1, hpd⟩
      unfold band_energy bandEnergySpec
      rw [if_neg h, if_pos hfil]
  · unfold band_energy
    split
    · exact colMean_length _ _
    · exact List.length_replicate _ _
  · unfold get_band
    split
    · exact colMean_length _ _
    · exact List.length_replicate _ _
  · intro hall
    have hany : ¬ freqs.any (fun f => decide (fmin ≤ f ∧ f < fmax)) = true := by
      rw [List.any_eq_true]
      rintro ⟨f, hf, hpf⟩
      simp only [decide_eq_true_eq] at hpf
      exact hall f hf hpf
    unfold band_energy
    rw [if_neg hany]
  · intro hall
    have hany : ¬ freqs.any (fun f => decide (fmin ≤ f ∧ f ≤ fmax)) = true := by
      rw [List.any_eq_true]
      rintro ⟨f, hf, hpf⟩
      simp only [decide_eq_true_eq] at hpf
      exact hall f hf hpf
    unfold get_band
    rw [if_neg hany]

/-- C8 witness: the amended contract evaluated on a concrete two-bin
spectrogram: the range `(0, 1)` matches no bin, so both band extractors
return the zero series of length `2`. -/
theorem c8_band_energy_contract_witness :
    band_energy [(10 : ℚ), 30] [[1, 2], [3, 4]] 0 1 = List.replicate 2 0 ∧
    get_band [(10 : ℚ), 30] [[1, 2], [3, 4]] 0 1 = List.replicate 2 0 := by
  have h := c8_band_energy_contract [(10 : ℚ), 30] [[1, 2], [3, 4]] 0 1 (by simp)
  exact ⟨h.2.2.2.1 (by norm_num), h.2.2.2.2 (by norm_num)⟩

/-- C2 (counterexample): in a feature table assembled from library outputs
with librosa's documented shapes for a 2560-sample signal, the
zero-crossing-rate series (uncentered framing, `2` frames) is shorter than
the `times` axis (centered STFT framing, `6` frames), refuting the claim
that every named per-frame series has length `len(times)`. -/
theorem c2_counterexample :
    libC2.zcrRaw.length = zcrFrames libC2.L ∧
    nCols libC2.S = stftFrames libC2.L ∧
    (analyze_audio libC2).zero_crossing_rate.length ≠ (analyze_audio libC2).times.length := by
  have h1 : (analyze_audio libC2).zero_crossing_rate.length = 2 := by
    show (zcr_feat libC2.zcrRaw).length = 2
    rw [zcr_feat_length]
    rfl
  have h2 : (analyze_audio libC2).times.length = 6 := by
    show (timesOf (nCols libC2.S)).length = 6
    rw [timesOf_length]
    rfl
  refine ⟨by decide, by decide, ?_⟩
  rw [h1, h2]
  omega

/-- C2 (amended): in every assembled feature table, `times` is strictly
increasing and starts at `0`, and every named per-frame series has length
`len(times)` — except `zero_crossing_rate`, which is computed from the
waveform with uncentered framing and has length `len(times) - 4` (hence not
`len(times)`) for signals of at least one FFT window.  The hypotheses state
the librosa-documented shapes of the library outputs. -/
theorem c2_feature_series_alignment (lib : LibIn)
    (hchroma : nCols lib.chromaRaw = nCols lib.S)
    (hmfcc : nCols lib.mfccRaw = nCols lib.S)
    (hzcr : lib.zcrRaw.length = zcrFrames lib.L)
    (hL : 2048 ≤ lib.L)
    (hframes : nCols lib.S = stftFrames lib.L) :
    (analyze_audio lib).times.Pairwise (· < ·) ∧
    (∀ h0 : 0 < (analyze_audio lib).times.length,
      (analyze_audio lib).times.get ⟨0, h0⟩ = 0) ∧
    (∀ s ∈ [(analyze_audio lib).rms, (analyze_audio lib).bass, (analyze_audio lib).mid,
        (analyze_audio lib).treble, (analyze_audio lib).onset,
        (analyze_audio lib).spectral_centroid, (analyze_audio lib).spectral_rolloff,
        (analyze_audio lib).spectral_flatness, (analyze_audio lib).spectral_bandwidth,
        (analyze_audio lib).spectral_contrast, (analyze_audio lib).tempogram,
        (analyze_audio lib).harmonic, (analyze_audio lib).percussive,
        (analyze_audio lib).chroma, (analyze_audio lib).tonnetz,
        (analyze_audio lib).sub_bass, (analyze_audio lib).low_mid,
        (analyze_audio lib).high_mid, (analyze_audio lib).presence,
        (analyze_audio lib).brilliance, (analyze_audio lib).mfcc,
        (analyze_audio lib).mfcc_delta, (analyze_audio lib).mfcc_delta2,
        (analyze_audio lib).loudness, (analyze_audio lib).novelty,
        (analyze_audio lib).spectral_flux],
      s.length = (analyze_audio lib).times.length) ∧
    (analyze_audio lib).zero_crossing_rate.length = (analyze_audio lib).times.length - 4 ∧
    (analyze_audio lib).zero_crossing_rate.length ≠ (analyze_audio lib).times.length := by
  have htimes : (analyze_audio lib).times.length = nCols lib.S := timesOf_length _
  have hz : (analyze_audio lib).zero_crossing_rate.length = zcrFrames lib.L := by
    show (zcr_feat lib.zcrRaw).length = _
    rw [zcr_feat_length, hzcr]
  obtain ⟨hsub, hadd⟩ := zcrFrames_eq_sub lib.L hL
  refine ⟨timesOf_pairwise _, timesOf_get_zero _, ?_, ?_, ?_⟩
  · intro s hs
    rw [htimes]
    simp only [List.mem_cons, List.not_mem_nil, or_false] at hs
    rcases hs with rfl | rfl | rfl | rfl | rfl | rfl | rfl | rfl | rfl | rfl | rfl | rfl |
      rfl | rfl | rfl | rfl | rfl | rfl | rfl | rfl | rfl | rfl | rfl | rfl | rfl | rfl
    · exact rms_feat_length _ _
    · exact maskBand_length _ _ _ _
    · exact maskBand_length _ _ _ _
    · exact maskBand_length _ _ _ _
    · exact onset_feat_length _ _
    · exact centroid_feat_length _ _
    · exact rolloff_feat_length _ _
    · exact flatness_feat_length _ _ _
    · exact bandwidth_feat_length _ _ _
    · exact contrast_feat_length _
    · exact tempogram_feat_length _ _
    · exact harmonic_feat_length _ _ _ _
    · exact percussive_feat_length _ _ _ _
    · exact (chroma_feat_length _).trans hchroma
    · exact tonnetz_feat_length _ _ _ _
    · exact maskBand_length _ _ _ _
    · exact maskBand_length _ _ _ _
    · exact maskBand_length _ _ _ _
    · exact maskBand_length _ _ _ _
    · exact maskBand_length _ _ _ _
    · exact (mfcc_feat_length _).trans hmfcc
    · exact (mfcc_delta_feat_length _).trans hmfcc
    · exact (mfcc_delta2_feat_length _).trans hmfcc
    · exact rms_feat_length _ _
    · exact onset_feat_length _ _
    · exact flux_feat_length _
  · rw [hz, htimes, hframes]
    exact hsub
  · rw [hz, htimes, hframes]
    omega

/-- C2 witness: the amended alignment evaluated at the concrete library
input `libC2`. -/
theorem c2_feature_series_alignment_witness :
    (analyze_audio libC2).rms.length = (analyze_audio libC2).times.length ∧
    (analyze_audio libC2).zero_crossing_rate.length =
      (analyze_audio libC2).times.length - 4 := by
  have h := c2_feature_series_alignment libC2 (by decide) (by decide) (by decide)
    (by decide) (by decide)
  exact ⟨h.2.2.1 _ (List.mem_cons_self _ _), h.2.2.2.1⟩

end Visualizer
